import Mathlib

/-!
Verification of the book-collection CRUD core (`src/flask.ts`).

The reference code keeps a global list `books` of records, each record a
dictionary of field name to JSON value.  We embed records as association
lists of `String × Value` with Python-dict semantics for lookup, key
assignment and `dict.update`, and embed the five HTTP handlers
(`Books.get`, `Books.post`, `Book.get`, `Book.put`, `Book.delete`) as
pure functions on the collection state.
-/

/-- A JSON scalar value as used by the records: a number or a string. -/
inductive Value where
  | int (n : Int)
  | str (s : String)
deriving DecidableEq, Repr

/-- A book record: an open mapping of field name to value (a Python dict),
embedded as an association list in insertion order. -/
abbrev Record := List (String × Value)

/-- The collection state: the ordered list `books`. -/
abbrev Collection := List Record

/-- Python dict lookup `d[k]`: value of the first entry with key `k`. -/
def dlookup : Record → String → Option Value
  | [], _ => none
  | (k', v) :: rest, k => if k' = k then some v else dlookup rest k

/-- Python dict assignment `d[k] = v`: overwrite the entry for `k` in place,
or append a new entry when the key is absent. -/
def dset : Record → String → Value → Record
  | [], k, v => [(k, v)]
  | (k', v') :: rest, k, v =>
    if k' = k then (k, v) :: rest else (k', v') :: dset rest k v

/-- Python `d.update(other)`: assign every entry of `other` into `d`,
in order. -/
def dictUpdate (d : Record) (other : Record) : Record :=
  other.foldl (fun acc kv => dset acc kv.1 kv.2) d

/-- The seed state the module starts with: the two pre-populated books. -/
def seed : Collection :=
  [[("id", Value.int 1), ("title", Value.str "To Kill a Mockingbird"),
    ("author", Value.str "Harper Lee")],
   [("id", Value.int 2), ("title", Value.str "1984"),
    ("author", Value.str "George Orwell")]]

/-- The record's `id` field equals the requested integer id
(`book["id"] == book_id` in the source). -/
def hasId (book : Record) (book_id : Int) : Prop :=
  dlookup book "id" = some (Value.int book_id)

instance (book : Record) (book_id : Int) : Decidable (hasId book book_id) := by
  unfold hasId; infer_instance

/-- Boolean form of the id test used by the scans. -/
def matchesId (book_id : Int) (book : Record) : Bool :=
  decide (hasId book book_id)

/-- `Books.get`: return the whole list. -/
def listBooks (books : Collection) : Collection := books

/-- `Books.post`: overwrite the payload's `id` with `len(books) + 1`,
append, and return the stored record. -/
def post (books : Collection) (new_book : Record) : Collection × Record :=
  let nb := dset new_book "id" (Value.int (Int.ofNat books.length + 1))
  (books ++ [nb], nb)

/-- `Book.get`: linear scan for the first record whose id matches. -/
def getBook (books : Collection) (book_id : Int) : Option Record :=
  books.find? (matchesId book_id)

/-- `Book.put`: find the first record whose id matches and merge the
supplied fields into it in place; `none` when no record matches. -/
def putAux (book_id : Int) (fields : Record) : Collection → Collection × Option Record
  | [] => ([], none)
  | b :: rest =>
    if matchesId book_id b then
      let m := dictUpdate b fields
      (m :: rest, some m)
    else
      let res := putAux book_id fields rest
      (b :: res.1, res.2)

/-- `Book.put` on the collection state. -/
def put (books : Collection) (book_id : Int) (fields : Record) :
    Collection × Option Record :=
  putAux book_id fields books

/-- `Book.delete`: rebuild the list without the records whose id matches. -/
def deleteBook (books : Collection) (book_id : Int) : Collection :=
  books.filter (fun book => !(matchesId book_id book))

/-- One API request, as dispatched by the routes. -/
inductive Op where
  | list_
  | get (book_id : Int)
  | create (fields : Record)
  | update (book_id : Int) (fields : Record)
  | delete (book_id : Int)

/-- The HTTP-level outcome of one request. -/
inductive Result where
  | listOk (bs : Collection)
  | bookOk (b : Record)
  | created (b : Record)
  | deleted
  | notFound
deriving DecidableEq, Repr

/-- Handle one request: the new collection state and the response. -/
def applyOp (books : Collection) : Op → Collection × Result
  | Op.list_ => (books, Result.listOk (listBooks books))
  | Op.get book_id =>
    match getBook books book_id with
    | some b => (books, Result.bookOk b)
    | none => (books, Result.notFound)
  | Op.create fields =>
    let res := post books fields
    (res.1, Result.created res.2)
  | Op.update book_id fields =>
    let res := put books book_id fields
    match res.2 with
    | some b => (res.1, Result.bookOk b)
    | none => (books, Result.notFound)
  | Op.delete book_id => (deleteBook books book_id, Result.deleted)

/-- The state transition of one request. -/
def step (books : Collection) (op : Op) : Collection :=
  (applyOp books op).1

/-- Run a sequence of requests from a starting state. -/
def run (books : Collection) (ops : List Op) : Collection :=
  ops.foldl step books

/-- No two records of the collection carry the same id value. -/
def UniqueIds (books : Collection) : Prop :=
  (books.map (fun b => dlookup b "id")).Nodup

instance (books : Collection) : Decidable (UniqueIds books) := by
  unfold UniqueIds; infer_instance

/-- An operation that is not a delete and not an update. -/
def nonDeleting : Op → Bool
  | Op.update _ _ => false
  | Op.delete _ => false
  | _ => true

/-- Every record's id is its 1-based position in the list. -/
def Positional (books : Collection) : Prop :=
  books.map (fun b => dlookup b "id") =
    (List.range books.length).map (fun i => some (Value.int (Int.ofNat i + 1)))

/-! ### Dictionary lemmas -/

theorem dlookup_dset_self (r : Record) (k : String) (v : Value) :
    dlookup (dset r k v) k = some v := by
  induction r with
  | nil => simp [dset, dlookup]
  | cons kv rest ih =>
    by_cases h : kv.1 = k
    · simp [dset, h, dlookup]
    · simp [dset, h, dlookup, ih]

theorem dlookup_dset_ne (r : Record) (k : String) (v : Value) (q : String)
    (h : q ≠ k) : dlookup (dset r k v) q = dlookup r q := by
  have hkq : ¬ k = q := fun hh => h hh.symm
  induction r with
  | nil => simp [dset, dlookup, hkq]
  | cons kv rest ih =>
    obtain ⟨k1, v1⟩ := kv
    by_cases hk : k1 = k
    · subst hk
      simp [dset, dlookup, hkq]
    · simp [dset, dlookup, hk, ih]

theorem dlookup_eq_none_iff (r : Record) (k : String) :
    dlookup r k = none ↔ k ∉ r.map Prod.fst := by
  induction r with
  | nil => simp [dlookup]
  | cons kv rest ih =>
    obtain ⟨k1, v1⟩ := kv
    by_cases h : k1 = k
    · subst h
      simp [dlookup]
    · rw [List.map_cons]
      simp only [dlookup, if_neg h, List.mem_cons, not_or, ih]
      constructor
      · intro hh
        exact ⟨Ne.symm h, hh⟩
      · intro hh
        exact hh.2

theorem dictUpdate_cons (d : Record) (k : String) (v : Value) (rest : Record) :
    dictUpdate d ((k, v) :: rest) = dictUpdate (dset d k v) rest := rfl

theorem dictUpdate_nil (d : Record) : dictUpdate d [] = d := rfl

theorem dlookup_dictUpdate_none (other : Record) (d : Record) (k : String)
    (h : dlookup other k = none) :
    dlookup (dictUpdate d other) k = dlookup d k := by
  induction other generalizing d with
  | nil => rfl
  | cons kv rest ih =>
    obtain ⟨k0, v0⟩ := kv
    by_cases hk : k0 = k
    · simp [dlookup, hk] at h
    · simp only [dlookup, if_neg hk] at h
      rw [dictUpdate_cons, ih _ h, dlookup_dset_ne _ _ _ _ (fun hh => hk hh.symm)]

theorem dlookup_dictUpdate_some (other : Record) (d : Record) (k : String) (v : Value)
    (hnd : (other.map Prod.fst).Nodup) (h : dlookup other k = some v) :
    dlookup (dictUpdate d other) k = some v := by
  induction other generalizing d with
  | nil => simp [dlookup] at h
  | cons kv rest ih =>
    obtain ⟨k0, v0⟩ := kv
    simp only [List.map_cons, List.nodup_cons] at hnd
    by_cases hk : k0 = k
    · subst hk
      have hv : v0 = v := by
        have hx : dlookup ((k0, v0) :: rest) k0 = some v0 := by simp [dlookup]
        rw [hx] at h
        exact Option.some.inj h
      subst hv
      have hnone : dlookup rest k0 = none := (dlookup_eq_none_iff rest k0).mpr hnd.1
      rw [dictUpdate_cons, dlookup_dictUpdate_none rest _ _ hnone,
        dlookup_dset_self]
    · simp only [dlookup, if_neg hk] at h
      rw [dictUpdate_cons]
      exact ih (dset d k0 v0) hnd.2 h

/-! ### Scan lemmas -/

theorem matchesId_true_iff (book_id : Int) (b : Record) :
    matchesId book_id b = true ↔ hasId b book_id := by
  simp [matchesId]

theorem matchesId_false_iff (book_id : Int) (b : Record) :
    matchesId book_id b = false ↔ ¬ hasId b book_id := by
  simp [matchesId]

theorem find?_first_spec {α : Type} (p : α → Bool) (l : List α) (b : α)
    (h : l.find? p = some b) :
    ∃ i, ∃ hi : i < l.length, l.get ⟨i, hi⟩ = b ∧ p b = true ∧
      ∀ j, ∀ hj : j < l.length, j < i → p (l.get ⟨j, hj⟩) = false := by
  induction l with
  | nil => simp [List.find?] at h
  | cons a rest ih =>
    by_cases ha : p a = true
    · rw [List.find?_cons_of_pos _ ha] at h
      refine ⟨0, by simp, ?_, ?_, ?_⟩
      · simpa using Option.some.inj h
      · exact (Option.some.inj h) ▸ ha
      · intro j hj hj0
        omega
    · rw [List.find?_cons_of_neg _ ha] at h
      obtain ⟨i, hi, hget, hpb, hmin⟩ := ih h
      refine ⟨i + 1, by simpa using Nat.succ_lt_succ hi, by simpa using hget, hpb, ?_⟩
      intro j hj hji
      cases j with
      | zero => simpa using ha
      | succ j =>
        have hj' : j < rest.length := by simpa using Nat.lt_of_succ_lt_succ hj
        have := hmin j hj' (Nat.lt_of_succ_lt_succ hji)
        simpa using this

theorem putAux_spec (book_id : Int) (fields : Record) (books : Collection) :
    ((∀ b ∈ books, ¬ hasId b book_id) ∧ putAux book_id fields books = (books, none))
    ∨ (∃ pre b postl, books = pre ++ b :: postl ∧ (∀ x ∈ pre, ¬ hasId x book_id) ∧
        hasId b book_id ∧
        putAux book_id fields books =
          (pre ++ dictUpdate b fields :: postl, some (dictUpdate b fields))) := by
  induction books with
  | nil => exact Or.inl ⟨by simp, rfl⟩
  | cons a rest ih =>
    by_cases ha : hasId a book_id
    · refine Or.inr ⟨[], a, rest, by simp, by simp, ha, ?_⟩
      simp [putAux, (matchesId_true_iff book_id a).mpr ha]
    · have hfalse : matchesId book_id a = false := (matchesId_false_iff book_id a).mpr ha
      rcases ih with ⟨hall, heq⟩ | ⟨pre, b, postl, hdecomp, hpre, hb, heq⟩
      · refine Or.inl ⟨?_, ?_⟩
        · intro x hx
          rcases List.mem_cons.mp hx with hx | hx
          · exact hx ▸ ha
          · exact hall x hx
        · simp [putAux, hfalse, heq]
      · refine Or.inr ⟨a :: pre, b, postl, by simp [hdecomp], ?_, hb, ?_⟩
        · intro x hx
          rcases List.mem_cons.mp hx with hx | hx
          · exact hx ▸ ha
          · exact hpre x hx
        · simp [putAux, hfalse, heq]

/-! ### Positional id invariant (holds while no delete/update happens) -/

theorem positional_seed : Positional seed := by
  unfold Positional
  decide

theorem positional_create (c : Collection) (f : Record) (h : Positional c) :
    Positional (step c (Op.create f)) := by
  unfold Positional at *
  simp only [step, applyOp, post]
  rw [List.map_append, h, List.length_append]
  simp only [List.length_singleton, List.range_succ, List.map_append, List.map_cons,
    List.map_nil, dlookup_dset_self]

theorem positional_run (ops : List Op) (c : Collection)
    (h : ∀ op ∈ ops, nonDeleting op = true) (hc : Positional c) :
    Positional (run c ops) := by
  induction ops generalizing c with
  | nil => exact hc
  | cons op rest ih =>
    have hop : nonDeleting op = true := h op (List.mem_cons_self op rest)
    have hrest : ∀ o ∈ rest, nonDeleting o = true :=
      fun o ho => h o (List.mem_cons_of_mem op ho)
    show Positional (run (step c op) rest)
    refine ih (step c op) hrest ?_
    cases op with
    | list_ => exact hc
    | get book_id =>
      have hstep : step c (Op.get book_id) = c := by
        simp only [step, applyOp]
        cases getBook c book_id <;> rfl
      rw [hstep]
      exact hc
    | create f => exact positional_create c f hc
    | update book_id f => simp [nonDeleting] at hop
    | delete book_id => simp [nonDeleting] at hop

theorem positional_uniqueIds (c : Collection) (h : Positional c) : UniqueIds c := by
  unfold UniqueIds
  rw [h]
  refine List.Nodup.map ?_ (List.nodup_range c.length)
  intro a b hab
  simp only [Option.some.injEq, Value.int.injEq, Int.ofNat_eq_natCast] at hab
  omega

/-! ### Claims -/

/-- C1, counterexample: the claimed invariant fails on the code.  From the
seed state, delete id 1 and then create: the new record is assigned
id = length + 1 = 2, which duplicates the id of the surviving seed record. -/
theorem C1_counterexample : ¬ UniqueIds (run seed [Op.delete 1, Op.create []]) := by
  decide

/-- C1 (amended): id uniqueness is an invariant only of the delete-free and
update-free fragment: starting from the seed state, after every sequence of
list/get/create operations, no two records in the collection have the same
id (each record's id is in fact its 1-based position). -/
theorem C1_unique_ids (ops : List Op)
    (h : ∀ op ∈ ops, nonDeleting op = true) :
    UniqueIds (run seed ops) :=
  positional_uniqueIds _ (positional_run ops seed h positional_seed)

theorem C1_witness :
    (∀ op ∈ ([Op.list_, Op.create [], Op.get 3] : List Op), nonDeleting op = true) ∧
    UniqueIds (run seed [Op.list_, Op.create [], Op.get 3]) :=
  ⟨by decide, C1_unique_ids [Op.list_, Op.create [], Op.get 3] (by decide)⟩

/-- C2: create overwrites any caller-supplied id with length + 1, appends the
record at the end, returns the stored record, and always responds with a
created result (it never fails, whatever the shape of the payload). -/
theorem C2_create_spec (books : Collection) (fields : Record) :
    dlookup (post books fields).2 "id" = some (Value.int (Int.ofNat books.length + 1)) ∧
    (post books fields).1 = books ++ [(post books fields).2] ∧
    (∀ k, k ≠ "id" → dlookup (post books fields).2 k = dlookup fields k) ∧
    applyOp books (Op.create fields) =
      ((post books fields).1, Result.created (post books fields).2) := by
  refine ⟨?_, rfl, ?_, rfl⟩
  · simp [post, dlookup_dset_self]
  · intro k hk
    simp only [post]
    exact dlookup_dset_ne fields "id" (Value.int (Int.ofNat books.length + 1)) k hk

/-- C6: delete is idempotent on the collection state: deleting the same id
twice in a row yields the same state as deleting it once. -/
theorem C6_delete_idempotent (books : Collection) (book_id : Int) :
    run books [Op.delete book_id, Op.delete book_id] = run books [Op.delete book_id] := by
  show deleteBook (deleteBook books book_id) book_id = deleteBook books book_id
  simp [deleteBook, List.filter_filter]

/-- C7: from the seed state, deleting id 2 and then creating any record
assigns the new record id 2 (length-based assignment), and the final state
is the filtered collection with the new record appended. -/
theorem C7_id_collision (fields : Record) :
    dlookup (post (deleteBook seed 2) fields).2 "id" = some (Value.int 2) ∧
    run seed [Op.delete 2, Op.create fields] =
      deleteBook seed 2 ++ [(post (deleteBook seed 2) fields).2] := by
  constructor
  · have hlen : (deleteBook seed 2).length = 1 := by decide
    have hpost : (post (deleteBook seed 2) fields).2 =
        dset fields "id" (Value.int (Int.ofNat (deleteBook seed 2).length + 1)) := rfl
    rw [hpost, hlen, dlookup_dset_self]
    decide
  · rfl

/-- C3: get returns the first record (in insertion order) whose id matches
when one exists and responds notFound otherwise; update responds notFound
exactly when no record matches; list, create and delete never respond
notFound. -/
theorem C3_error_handling (books : Collection) (book_id : Int) (fields : Record) :
    ((getBook books book_id = none ∧
        (applyOp books (Op.get book_id)).2 = Result.notFound ∧
        ∀ b ∈ books, ¬ hasId b book_id)
      ∨ (∃ b, getBook books book_id = some b ∧
          (applyOp books (Op.get book_id)).2 = Result.bookOk b ∧ hasId b book_id ∧
          ∃ i, ∃ hi : i < books.length, books.get ⟨i, hi⟩ = b ∧
            ∀ j, ∀ hj : j < books.length, j < i →
              ¬ hasId (books.get ⟨j, hj⟩) book_id)) ∧
    ((applyOp books (Op.update book_id fields)).2 = Result.notFound ↔
      ∀ b ∈ books, ¬ hasId b book_id) ∧
    (applyOp books Op.list_).2 = Result.listOk books ∧
    (applyOp books (Op.create fields)).2 = Result.created (post books fields).2 ∧
    (applyOp books (Op.delete book_id)).2 = Result.deleted := by
  refine ⟨?_, ?_, rfl, rfl, rfl⟩
  · cases hg : getBook books book_id with
    | none =>
      left
      refine ⟨rfl, by simp [applyOp, hg], ?_⟩
      intro b hb hid
      simp only [getBook] at hg
      exact List.find?_eq_none.mp hg b hb ((matchesId_true_iff book_id b).mpr hid)
    | some b =>
      right
      have hg' : books.find? (matchesId book_id) = some b := hg
      obtain ⟨i, hi, hget, hpb, hmin⟩ := find?_first_spec (matchesId book_id) books b hg'
      refine ⟨b, rfl, by simp [applyOp, hg], (matchesId_true_iff book_id b).mp hpb,
        i, hi, hget, ?_⟩
      intro j hj hji
      exact (matchesId_false_iff book_id _).mp (hmin j hj hji)
  · rcases putAux_spec book_id fields books with ⟨hall, heq⟩ | ⟨pre, b, postl, hdecomp, hpre, hb, heq⟩
    · constructor
      · intro _
        exact hall
      · intro _
        simp [applyOp, put, heq]
    · constructor
      · intro hres
        exfalso
        simp [applyOp, put, heq] at hres
      · intro hall
        exact absurd hb (hall b (hdecomp ▸ List.mem_append_right pre (List.mem_cons_self b postl)))

/-- C4: when a record with the given id exists, update merges the supplied
fields into the first such record in place: keys present in fields (the id
key included) take the value from fields, keys absent from fields keep their
previous value, all other records are untouched, and the full merged record
is returned. -/
theorem C4_update_merge (books : Collection) (book_id : Int) (fields : Record)
    (hnd : (fields.map Prod.fst).Nodup) (hex : ∃ b ∈ books, hasId b book_id) :
    ∃ pre b postl, books = pre ++ b :: postl ∧ hasId b book_id ∧
      (∀ x ∈ pre, ¬ hasId x book_id) ∧
      put books book_id fields =
        (pre ++ dictUpdate b fields :: postl, some (dictUpdate b fields)) ∧
      (applyOp books (Op.update book_id fields)).2 =
        Result.bookOk (dictUpdate b fields) ∧
      (∀ k v, dlookup fields k = some v → dlookup (dictUpdate b fields) k = some v) ∧
      (∀ k, dlookup fields k = none → dlookup (dictUpdate b fields) k = dlookup b k) := by
  rcases putAux_spec book_id fields books with ⟨hall, _⟩ | ⟨pre, b, postl, hdecomp, hpre, hb, heq⟩
  · obtain ⟨b, hbmem, hbid⟩ := hex
    exact absurd hbid (hall b hbmem)
  · refine ⟨pre, b, postl, hdecomp, hb, hpre, heq, ?_, ?_, ?_⟩
    · simp [applyOp, put, heq]
    · intro k v hkv
      exact dlookup_dictUpdate_some fields b k v hnd hkv
    · intro k hk
      exact dlookup_dictUpdate_none fields b k hk

theorem C4_witness :
    ∃ pre b postl, seed = pre ++ b :: postl ∧ hasId b 1 ∧
      (∀ x ∈ pre, ¬ hasId x 1) ∧
      put seed 1 [("title", Value.str "X")] =
        (pre ++ dictUpdate b [("title", Value.str "X")] :: postl,
          some (dictUpdate b [("title", Value.str "X")])) ∧
      (applyOp seed (Op.update 1 [("title", Value.str "X")])).2 =
        Result.bookOk (dictUpdate b [("title", Value.str "X")]) ∧
      (∀ k v, dlookup [("title", Value.str "X")] k = some v →
        dlookup (dictUpdate b [("title", Value.str "X")]) k = some v) ∧
      (∀ k, dlookup [("title", Value.str "X")] k = none →
        dlookup (dictUpdate b [("title", Value.str "X")]) k = dlookup b k) :=
  C4_update_merge seed 1 [("title", Value.str "X")] (by decide) (by decide)

/-- C5: delete removes every record whose id matches (duplicates included),
keeps every record whose id does not match, always responds with the
deleted result even when nothing matched, and a get on the same id right
after a delete responds notFound. -/
theorem C5_delete_removes (books : Collection) (book_id : Int) :
    (∀ b ∈ deleteBook books book_id, ¬ hasId b book_id) ∧
    (∀ b ∈ books, ¬ hasId b book_id → b ∈ deleteBook books book_id) ∧
    (applyOp books (Op.delete book_id)).2 = Result.deleted ∧
    getBook (deleteBook books book_id) book_id = none ∧
    (applyOp (step books (Op.delete book_id)) (Op.get book_id)).2 = Result.notFound := by
  have hmem : ∀ b, b ∈ deleteBook books book_id ↔ b ∈ books ∧ ¬ hasId b book_id := by
    intro b
    simp [deleteBook, List.mem_filter, matchesId]
  have hnone : getBook (deleteBook books book_id) book_id = none := by
    simp only [getBook]
    rw [List.find?_eq_none]
    intro b hb hp
    exact ((hmem b).mp hb).2 ((matchesId_true_iff book_id b).mp hp)
  refine ⟨fun b hb => ((hmem b).mp hb).2,
    fun b hb hnid => (hmem b).mpr ⟨hb, hnid⟩, rfl, hnone, ?_⟩
  have hstep : step books (Op.delete book_id) = deleteBook books book_id := rfl
  rw [hstep]
  simp [applyOp, hnone]

/-- C9: list returns the whole collection unchanged, get leaves the state
unchanged, create appends at the end, delete yields a sublist of the
previous state (relative order kept), and update either leaves the state
unchanged or replaces exactly one record in place. -/
theorem C9_order_preservation (books : Collection) (book_id : Int) (fields : Record) :
    applyOp books Op.list_ = (books, Result.listOk books) ∧
    (applyOp books (Op.get book_id)).1 = books ∧
    (applyOp books (Op.create fields)).1 = books ++ [(post books fields).2] ∧
    List.Sublist (applyOp books (Op.delete book_id)).1 books ∧
    ((applyOp books (Op.update book_id fields)).1 = books ∨
      ∃ pre b postl, books = pre ++ b :: postl ∧
        (applyOp books (Op.update book_id fields)).1 =
          pre ++ dictUpdate b fields :: postl) := by
  refine ⟨rfl, ?_, rfl, ?_, ?_⟩
  · simp only [applyOp]
    cases getBook books book_id <;> rfl
  · exact List.filter_sublist books
  · rcases putAux_spec book_id fields books with ⟨_, heq⟩ | ⟨pre, b, postl, hdecomp, _, _, heq⟩
    · left
      simp [applyOp, put, heq]
    · right
      exact ⟨pre, b, postl, hdecomp, by simp [applyOp, put, heq]⟩

/-- C10: updating an existing id with an empty field mapping returns the
stored record unchanged and leaves the whole collection state unchanged. -/
theorem C10_empty_update (books : Collection) (book_id : Int)
    (hex : ∃ b ∈ books, hasId b book_id) :
    (applyOp books (Op.update book_id [])).1 = books ∧
    ∃ b, put books book_id [] = (books, some b) ∧ b ∈ books ∧ hasId b book_id ∧
      (applyOp books (Op.update book_id [])).2 = Result.bookOk b := by
  rcases putAux_spec book_id [] books with ⟨hall, _⟩ | ⟨pre, b, postl, hdecomp, hpre, hb, heq⟩
  · obtain ⟨b, hbmem, hbid⟩ := hex
    exact absurd hbid (hall b hbmem)
  · rw [dictUpdate_nil] at heq
    have hput : put books book_id [] = (books, some b) := by
      have h0 : put books book_id [] = putAux book_id [] books := rfl
      rw [h0, heq, ← hdecomp]
    refine ⟨?_, b, hput, ?_, hb, ?_⟩
    · simp [applyOp, hput]
    · rw [hdecomp]
      exact List.mem_append_right pre (List.mem_cons_self b postl)
    · simp [applyOp, hput]

theorem C10_witness :
    (applyOp seed (Op.update 2 [])).1 = seed ∧
    ∃ b, put seed 2 [] = (seed, some b) ∧ b ∈ seed ∧ hasId b 2 ∧
      (applyOp seed (Op.update 2 [])).2 = Result.bookOk b :=
  C10_empty_update seed 2 (by decide)

/-- C8: the end-to-end scenario from the seed state: create the Gatsby
record (assigned id 3), get 3 returns it, update 3 changes only the title
and echoes the full merged record, delete 3 succeeds, and the final list
is exactly the two seed records in their original order. -/
theorem C8_scenario :
    (applyOp seed (Op.create [("title", Value.str "The Great Gatsby"),
        ("author", Value.str "F. Scott Fitzgerald")])).2 =
      Result.created [("title", Value.str "The Great Gatsby"),
        ("author", Value.str "F. Scott Fitzgerald"), ("id", Value.int 3)] ∧
    (applyOp (run seed [Op.create [("title", Value.str "The Great Gatsby"),
        ("author", Value.str "F. Scott Fitzgerald")]]) (Op.get 3)).2 =
      Result.bookOk [("title", Value.str "The Great Gatsby"),
        ("author", Value.str "F. Scott Fitzgerald"), ("id", Value.int 3)] ∧
    (applyOp (run seed [Op.create [("title", Value.str "The Great Gatsby"),
        ("author", Value.str "F. Scott Fitzgerald")]])
        (Op.update 3 [("title", Value.str "The Great Gatsby (Updated)")])).2 =
      Result.bookOk [("title", Value.str "The Great Gatsby (Updated)"),
        ("author", Value.str "F. Scott Fitzgerald"), ("id", Value.int 3)] ∧
    (applyOp (run seed [Op.create [("title", Value.str "The Great Gatsby"),
        ("author", Value.str "F. Scott Fitzgerald")],
        Op.update 3 [("title", Value.str "The Great Gatsby (Updated)")]])
        (Op.delete 3)).2 = Result.deleted ∧
    (applyOp (run seed [Op.create [("title", Value.str "The Great Gatsby"),
        ("author", Value.str "F. Scott Fitzgerald")],
        Op.update 3 [("title", Value.str "The Great Gatsby (Updated)")],
        Op.delete 3]) Op.list_).2 = Result.listOk seed ∧
    run seed [Op.create [("title", Value.str "The Great Gatsby"),
        ("author", Value.str "F. Scott Fitzgerald")],
        Op.update 3 [("title", Value.str "The Great Gatsby (Updated)")],
        Op.delete 3] = seed := by
  decide
